import Mathlib

/-!
Shallow embedding of the scheduling core of `AutoPRScheduler.py`
(GitHub PR Scheduler): the in-memory application state (`AppState`),
the configuration/history manager (`update_history`, serialization to
the JSON config file), the PR manager (`validate_inputs`, `create_pr`)
and the scheduler operations (`schedule_pr`, `cancel_scheduled_pr`,
`reschedule_pr`, the timer fire action).

External effects (the `gh` subprocess, the filesystem check of the git
repository path, the Tk timer facility, message boxes) are modelled as
explicit parameters: `path_ok` (the repository-path check), `remote_ok`
(the exit status of the external PR-creation command), and `pr_job`
(the opaque handle returned by the timer facility, `none` when no GUI
instance is registered). Times are modelled as integers (seconds);
`datetime.now()` becomes an explicit `now` parameter.

Python dictionaries with integer keys are modelled as insertion-ordered
association lists `List (Nat × PRRecord)`.
-/

namespace AutoPR

/-- One entry of `app_state.scheduled_prs`: the dictionary built in
`PRScheduler.schedule_pr` (keys `repo`, `head`, `base`, `title`, `body`,
`time`, `git_repo_path`, `job`). -/
structure PRRecord where
  repo : String
  head : String
  base : String
  title : String
  body : String
  time : Int
  git_repo_path : String
  job : Option Nat
deriving DecidableEq, Repr

/-- The request data passed to `schedule_pr` / `create_pr`. -/
structure PRRequest where
  git_repo_path : String
  repo : String
  head : String
  base : String
  title : String
  body : String
deriving DecidableEq, Repr

/-- `app_state.history`: the four suggestion lists. -/
structure History where
  repos : List String
  usernames : List String
  branches : List String
  titles : List String
deriving DecidableEq, Repr

/-- The four valid history field names (the keys of the history dict). -/
inductive HField where
  | repos
  | usernames
  | branches
  | titles
deriving DecidableEq, Repr

def History.get (h : History) : HField → List String
  | .repos => h.repos
  | .usernames => h.usernames
  | .branches => h.branches
  | .titles => h.titles

def History.set (h : History) : HField → List String → History
  | .repos, l => { h with repos := l }
  | .usernames, l => { h with usernames := l }
  | .branches, l => { h with branches := l }
  | .titles, l => { h with titles := l }

/-- The mutable application state (`AppState` in the source):
`scheduled_prs` (an insertion-ordered dict from integer id to record),
`next_pr_id`, and the history lists. The `gui_instance` field carries no
persistent data relevant to the scheduling semantics and is modelled by
the `pr_job` parameters of the operations. -/
structure AppState where
  scheduled_prs : List (Nat × PRRecord)
  next_pr_id : Nat
  history : History
deriving DecidableEq, Repr

def initHistory : History := ⟨[], [], [], []⟩

/-- The state built by `AppState.__init__`. -/
def initState : AppState := ⟨[], 1, initHistory⟩

/-- Dictionary lookup (`d[k]` / `k in d`): first (only) binding of `k`. -/
def lookupId (d : List (Nat × PRRecord)) (k : Nat) : Option PRRecord :=
  match d with
  | [] => none
  | p :: rest => if p.1 = k then some p.2 else lookupId rest k

/-- Dictionary assignment `d[k] = v`: replace in place when the key is
present, append otherwise (Python dicts preserve insertion order). -/
def dictInsert (d : List (Nat × PRRecord)) (k : Nat) (v : PRRecord) :
    List (Nat × PRRecord) :=
  if (lookupId d k).isSome then
    d.map (fun p => if p.1 = k then (k, v) else p)
  else
    d ++ [(k, v)]

/-- Dictionary deletion `del d[k]`: drop the binding of `k` (keys are
unique in a Python dict, so dropping every binding of `k` is the same). -/
def dictErase : List (Nat × PRRecord) → Nat → List (Nat × PRRecord)
  | [], _ => []
  | p :: rest, k => if p.1 = k then dictErase rest k else p :: dictErase rest k

/-- `ConfigManager.update_history`: prepend a nonempty value that is not
already present, then drop the last entry when the list exceeds
`MAX_HISTORY_ENTRIES = 10`. An empty value, or a value already in the
list, leaves the list unchanged. -/
def update_history (h : History) (f : HField) (v : String) : History :=
  if v ≠ "" ∧ v ∉ h.get f then
    let l := v :: h.get f
    h.set f (if 10 < l.length then l.dropLast else l)
  else
    h

/-!  PRManager: input validation and PR creation. -/

/-- The values of the six form entry widgets plus the body text, as read
by `UIEventHandler._get_input_values` and `_update_input_history`. -/
structure FormValues where
  repo_path : String
  repo : String
  fork_user : String
  fork_branch : String
  base : String
  title : String
  body : String
deriving DecidableEq, Repr

/-- Python `dict.get(key, '')` on a string-keyed dictionary of strings. -/
def pyGet (d : List (String × String)) (key : String) : String :=
  match d with
  | [] => ""
  | p :: rest => if p.1 = key then p.2 else pyGet rest key

/-- Python `str.strip()`: drop leading and trailing whitespace
(modelled over the character list; the whitespace set is space, tab,
carriage return and newline). -/
def pyStrip (s : String) : String :=
  String.mk (((s.data.dropWhile Char.isWhitespace).reverse.dropWhile
    Char.isWhitespace).reverse)

/-- The dictionary returned by `UIEventHandler._get_input_values`: keys
`git_repo_path`, `repo`, `head` (the string `user:branch`), `base`,
`title`, `body` (stripped). -/
def get_input_values (f : FormValues) : List (String × String) :=
  [("git_repo_path", f.repo_path),
   ("repo", f.repo),
   ("head", f.fork_user ++ ":" ++ f.fork_branch),
   ("base", f.base),
   ("title", f.title),
   ("body", pyStrip f.body)]

/-- The `required_fields` dictionary built by `PRManager.validate_inputs`
from the inputs dictionary: note that it looks up the keys `repo_path`,
`username` and `branch`, which `_get_input_values` does not produce
(it produces `git_repo_path` and `head`), so those three lookups fall
back to the empty-string default. -/
def required_fields (inputs : List (String × String)) : List (String × String) :=
  [("Local Git Repo", pyGet inputs "repo_path"),
   ("Origin Repository", pyGet inputs "repo"),
   ("Forked Username", pyGet inputs "username"),
   ("Forked Branch", pyGet inputs "branch"),
   ("Base Branch", pyGet inputs "base"),
   ("PR Title", pyGet inputs "title")]

/-- Python `not value.strip()`: the value is empty or all whitespace. -/
def isBlank (s : String) : Bool := pyStrip s = ""

/-- The `missing` list of `validate_inputs`: labels of required fields
whose value strips to the empty string, in dictionary order. -/
def missingFields (inputs : List (String × String)) : List String :=
  ((required_fields inputs).filter (fun p => isBlank p.2)).map Prod.fst

/-- `PRManager.validate_inputs`: true exactly when no required field is
missing (otherwise an aggregate error dialog is shown). -/
def validate_inputs (inputs : List (String × String)) : Bool :=
  (missingFields inputs).isEmpty

/-- The text of the aggregate validation error dialog. -/
def validationMessage (inputs : List (String × String)) : String :=
  "Please fill in the following required fields:\n" ++
    String.intercalate "\n" (missingFields inputs)

/-- `PRManager.create_pr`, effects on `app_state` only. `path_ok` is the
filesystem check that `git_repo_path` exists and contains `.git`;
`remote_ok` is whether the external `gh pr create` command exited with
status 0. On success with a truthy `pr_id` that is a key of
`scheduled_prs`, the scheduled entry is deleted; on any failure the
state is untouched. Returns the boolean result of the Python function
together with the updated state. -/
def create_pr (s : AppState) (path_ok remote_ok : Bool) (pr_id : Option Nat) :
    Bool × AppState :=
  if path_ok = false then
    (false, s)
  else if remote_ok then
    match pr_id with
    | some i =>
        if i ≠ 0 ∧ (lookupId s.scheduled_prs i).isSome then
          (true, { s with scheduled_prs := dictErase s.scheduled_prs i })
        else
          (true, s)
    | none => (true, s)
  else
    (false, s)

/-!  PRScheduler: schedule, cancel, reschedule, fire. -/

/-- `PRScheduler.schedule_pr`. `now` is the value of `datetime.now()`;
the call fails (returns `none`) when `when_t - now ≤ 0`. Otherwise the
record is stored under the fresh id `next_pr_id`, the counter is
incremented, and the timer handle `pr_job` (the value returned by
`root.after`, or `none` when no GUI instance is registered) is stored on
the record. -/
def schedule_pr (s : AppState) (q : PRRequest) (when_t now : Int)
    (pr_job : Option Nat) : Option Nat × AppState :=
  if when_t - now ≤ 0 then
    (none, s)
  else
    let pr_id := s.next_pr_id
    let r : PRRecord :=
      { repo := q.repo, head := q.head, base := q.base, title := q.title,
        body := q.body, time := when_t, git_repo_path := q.git_repo_path,
        job := pr_job }
    (some pr_id,
     { s with scheduled_prs := dictInsert s.scheduled_prs pr_id r,
              next_pr_id := pr_id + 1 })

/-- `PRScheduler.cancel_scheduled_pr`: false and no change when the id
is absent; otherwise the timer is disarmed (external effect), the entry
is deleted and the config saved. -/
def cancel_scheduled_pr (s : AppState) (pr_id : Nat) : Bool × AppState :=
  if (lookupId s.scheduled_prs pr_id).isSome then
    (true, { s with scheduled_prs := dictErase s.scheduled_prs pr_id })
  else
    (false, s)

/-- `PRScheduler.reschedule_pr`, with the id returned by the inner
`schedule_pr` call exposed: false/`none` when the id is absent;
otherwise the captured record's fields are re-scheduled at `new_dt`
after cancelling (hence deleting) the existing entry. -/
def reschedule_core (s : AppState) (pr_id : Nat) (new_dt now : Int)
    (pr_job : Option Nat) : Option Nat × AppState :=
  match lookupId s.scheduled_prs pr_id with
  | none => (none, s)
  | some d =>
      let s1 := (cancel_scheduled_pr s pr_id).2
      schedule_pr s1
        { git_repo_path := d.git_repo_path, repo := d.repo, head := d.head,
          base := d.base, title := d.title, body := d.body }
        new_dt now pr_job

/-- `PRScheduler.reschedule_pr` as written: returns
`new_pr_id is not None`. -/
def reschedule_pr (s : AppState) (pr_id : Nat) (new_dt now : Int)
    (pr_job : Option Nat) : Bool × AppState :=
  let r := reschedule_core s pr_id new_dt now pr_job
  (r.1.isSome, r.2)

/-- The timer fire action `create_scheduled_pr` built inside
`schedule_pr`: it invokes `PRManager.create_pr` with the captured fields
and the captured `pr_id` (the captured fields only feed the external
command; the state effect depends on `pr_id` and the outcome alone). -/
def fireScheduled (s : AppState) (pr_id : Nat) (path_ok remote_ok : Bool) :
    Bool × AppState :=
  create_pr s path_ok remote_ok (some pr_id)

/-!  UIEventHandler: the create-now path. -/

/-- `UIEventHandler._update_input_history`. -/
def update_input_history (s : AppState) (f : FormValues) : AppState :=
  let h1 := update_history s.history .repos f.repo
  let h2 := update_history h1 .usernames f.fork_user
  let h3 := update_history h2 .branches f.fork_branch
  let h4 := update_history h3 .titles f.title
  { s with history := h4 }

/-- `UIEventHandler.create_pr_now`: validate, then update history and
invoke `PRManager.create_pr` with `pr_id = None`. The returned boolean
records whether `create_pr` (and hence any remote creation attempt) was
reached at all. -/
def create_pr_now (s : AppState) (f : FormValues) (path_ok remote_ok : Bool) :
    Bool × AppState :=
  if validate_inputs (get_input_values f) = false then
    (false, s)
  else
    (true, (create_pr (update_input_history s f) path_ok remote_ok none).2)

/-- The labels (among the six required-field labels) of the form fields
that are actually blank, used to state the validation claims. -/
def blankLabels (f : FormValues) : List String :=
  ([("Local Git Repo", f.repo_path),
    ("Origin Repository", f.repo),
    ("Forked Username", f.fork_user),
    ("Forked Branch", f.fork_branch),
    ("Base Branch", f.base),
    ("PR Title", f.title)].filter (fun p => isBlank p.2)).map Prod.fst

/-!  ConfigManager persistence: the value passed to `json.dump` and the
serialization semantics of `json.dump` itself.  Python values that can
appear in the config document: `None`, integers, strings, `datetime`
objects (the `time` field of a record), lists, string-keyed dicts and
int-keyed dicts (`scheduled_prs`). -/

inductive PyVal where
  | pNone : PyVal
  | pInt : Int → PyVal
  | pStr : String → PyVal
  | pDatetime : Int → PyVal
  | pListV : List PyVal → PyVal
  | pDictS : List (String × PyVal) → PyVal
  | pDictI : List (Int × PyVal) → PyVal

mutual

/-- `json.dump` semantics on one value: `None`/int/str serialize to
themselves, a `datetime` raises `TypeError` (modelled as `none`), lists
and dicts serialize element-wise, and integer dictionary keys are
coerced to their decimal string form.  The result, when defined, is the
document that `json.load` reads back (so string-keyed dicts with the
same shape). -/
def jsonDump : PyVal → Option PyVal
  | .pNone => some .pNone
  | .pInt n => some (.pInt n)
  | .pStr s => some (.pStr s)
  | .pDatetime _ => none
  | .pListV xs => (jsonDumpList xs).map .pListV
  | .pDictS kvs => (jsonDumpStrKeys kvs).map .pDictS
  | .pDictI kvs => (jsonDumpIntKeys kvs).map .pDictS

def jsonDumpList : List PyVal → Option (List PyVal)
  | [] => some []
  | x :: xs =>
      match jsonDump x with
      | none => none
      | some y => (jsonDumpList xs).map (fun ys => y :: ys)

def jsonDumpStrKeys : List (String × PyVal) → Option (List (String × PyVal))
  | [] => some []
  | p :: rest =>
      match jsonDump p.2 with
      | none => none
      | some w => (jsonDumpStrKeys rest).map (fun ws => (p.1, w) :: ws)

def jsonDumpIntKeys : List (Int × PyVal) → Option (List (String × PyVal))
  | [] => some []
  | p :: rest =>
      match jsonDump p.2 with
      | none => none
      | some w => (jsonDumpIntKeys rest).map (fun ws => (toString p.1, w) :: ws)

end

/-- One scheduled-PR record as stored in `app_state.scheduled_prs` and
handed to `json.dump` by `save_config`: the `time` field holds a
`datetime` object and the `job` field holds `None` or the Tk timer
handle (a string). -/
def recToPyVal (r : PRRecord) : PyVal :=
  .pDictS [("repo", .pStr r.repo),
           ("head", .pStr r.head),
           ("base", .pStr r.base),
           ("title", .pStr r.title),
           ("body", .pStr r.body),
           ("time", .pDatetime r.time),
           ("git_repo_path", .pStr r.git_repo_path),
           ("job", match r.job with
                   | none => .pNone
                   | some h => .pStr (toString h))]

def historyToPyVal (h : History) : PyVal :=
  .pDictS [("repos", .pListV (h.repos.map .pStr)),
           ("usernames", .pListV (h.usernames.map .pStr)),
           ("branches", .pListV (h.branches.map .pStr)),
           ("titles", .pListV (h.titles.map .pStr))]

/-- The dictionary that `ConfigManager.save_config` passes to
`json.dump`: `scheduled_prs` is an int-keyed dict of records,
`next_pr_id` an integer, `history` the four string lists. -/
def stateFileDict (s : AppState) : PyVal :=
  .pDictS [("scheduled_prs",
            .pDictI (s.scheduled_prs.map (fun p => ((p.1 : Int), recToPyVal p.2)))),
           ("next_pr_id", .pInt (s.next_pr_id : Int)),
           ("history", historyToPyVal s.history)]

/-- `ConfigManager.save_config`: the document written to the config
file when serialization succeeds; `none` when `json.dump` raises (the
exception is caught, a warning dialog is shown, and no usable file is
produced). -/
def save_config (s : AppState) : Option PyVal :=
  jsonDump (stateFileDict s)

/-!  Operation traces over the scheduler, for the identifier claims. -/

/-- One user-visible scheduler operation, with its external inputs. -/
inductive Op where
  | opSchedule (q : PRRequest) (when_t now : Int) (pr_job : Option Nat)
  | opCancel (pr_id : Nat)
  | opFire (pr_id : Nat) (path_ok remote_ok : Bool)
  | opReschedule (pr_id : Nat) (new_dt now : Int) (pr_job : Option Nat)
deriving DecidableEq, Repr

/-- Execute one operation: the identifier returned by a successful
`schedule_pr` call (invoked directly or from inside `reschedule_pr`),
and the successor state. -/
def step (s : AppState) : Op → Option Nat × AppState
  | .opSchedule q when_t now pr_job => schedule_pr s q when_t now pr_job
  | .opCancel pr_id => (none, (cancel_scheduled_pr s pr_id).2)
  | .opFire pr_id path_ok remote_ok =>
      (none, (fireScheduled s pr_id path_ok remote_ok).2)
  | .opReschedule pr_id new_dt now pr_job =>
      reschedule_core s pr_id new_dt now pr_job

/-- The identifiers returned by the successful `schedule_pr` calls of a
trace, in order. -/
def runIds (s : AppState) : List Op → List Nat
  | [] => []
  | op :: ops =>
      match (step s op).1 with
      | some i => i :: runIds (step s op).2 ops
      | none => runIds (step s op).2 ops

/-- Registry well-formedness: every key of `scheduled_prs` was issued by
a past `next_pr_id`, hence is strictly below the current counter.  This
holds in `initState` and is preserved by every operation. -/
def WF (s : AppState) : Prop :=
  ∀ p ∈ s.scheduled_prs, p.1 < s.next_pr_id

instance (s : AppState) : Decidable (WF s) := by
  unfold WF
  infer_instance

/-- Apply a sequence of `update_history` calls (field, value) in
order. -/
def histRun (h : History) : List (HField × String) → History
  | [] => h
  | u :: us => histRun (update_history h u.1 u.2) us

/-- The invariant of the four history lists: each holds at most
`MAX_HISTORY_ENTRIES = 10` entries and no duplicates. -/
def HistWF (h : History) : Prop :=
  ∀ f : HField, (h.get f).length ≤ 10 ∧ (h.get f).Nodup

/-!  Concrete example data used by witnesses and counterexamples. -/

def exRecord : PRRecord :=
  { repo := "octo/widgets", head := "rita:feature", base := "main",
    title := "Fix bug", body := "details", time := 160,
    git_repo_path := "/home/rita/widgets", job := some 7 }

/-- A registry holding the single pending record `exRecord` under id 1,
with counter 2: exactly the state after one successful schedule at time
160 from `initState` (with `now = 100`). -/
def exState : AppState :=
  { scheduled_prs := [(1, exRecord)], next_pr_id := 2, history := initHistory }

/-- The request whose scheduling produces `exRecord` (up to timer
handle and scheduled time). -/
def exRequest : PRRequest :=
  { git_repo_path := "/home/rita/widgets", repo := "octo/widgets",
    head := "rita:feature", base := "main", title := "Fix bug",
    body := "details" }

/-- A form with every field filled except the title, which is blank. -/
def exForm : FormValues :=
  { repo_path := "/home/rita/widgets", repo := "octo/widgets",
    fork_user := "rita", fork_branch := "feature", base := "main",
    title := " ", body := "details" }

/-!  Basic lemmas about the dictionary operations. -/

theorem lookupId_erase_self (d : List (Nat × PRRecord)) (k : Nat) :
    lookupId (dictErase d k) k = none := by
  induction d with
  | nil => rfl
  | cons p rest ih =>
      rw [dictErase]
      by_cases hp : p.1 = k
      · rw [if_pos hp]
        exact ih
      · rw [if_neg hp, lookupId, if_neg hp]
        exact ih

theorem lookupId_erase_ne (d : List (Nat × PRRecord)) (k k2 : Nat)
    (h : k2 ≠ k) : lookupId (dictErase d k) k2 = lookupId d k2 := by
  induction d with
  | nil => rfl
  | cons p rest ih =>
      rw [dictErase]
      by_cases hp : p.1 = k
      · have hp2 : p.1 ≠ k2 := by
          rw [hp]
          exact fun he => h he.symm
        rw [if_pos hp, lookupId, if_neg hp2]
        exact ih
      · rw [if_neg hp, lookupId, lookupId]
        by_cases hq : p.1 = k2
        · rw [if_pos hq, if_pos hq]
        · rw [if_neg hq, if_neg hq]
          exact ih

theorem mem_of_lookupId (d : List (Nat × PRRecord)) (k : Nat) (r : PRRecord)
    (h : lookupId d k = some r) : (k, r) ∈ d := by
  induction d with
  | nil => exact absurd h (by rw [lookupId]; exact Option.noConfusion)
  | cons p rest ih =>
      by_cases hp : p.1 = k
      · rw [lookupId, if_pos hp] at h
        injection h with h2
        obtain ⟨a, b⟩ := p
        simp only at hp h2
        subst hp
        subst h2
        exact List.mem_cons_self _ _
      · rw [lookupId, if_neg hp] at h
        exact List.mem_cons_of_mem _ (ih h)

theorem lookupId_eq_none_of_lt (d : List (Nat × PRRecord)) (n : Nat)
    (h : ∀ p ∈ d, p.1 < n) : lookupId d n = none := by
  induction d with
  | nil => rfl
  | cons p rest ih =>
      have hp : p.1 ≠ n := Nat.ne_of_lt (h p (List.mem_cons_self p rest))
      rw [lookupId, if_neg hp]
      exact ih (fun q hq => h q (List.mem_cons_of_mem p hq))

theorem lookupId_map_replace_self (d : List (Nat × PRRecord)) (k : Nat)
    (v : PRRecord) (h : (lookupId d k).isSome = true) :
    lookupId (d.map (fun p => if p.1 = k then (k, v) else p)) k = some v := by
  induction d with
  | nil => exact absurd h (by rw [lookupId]; exact Bool.noConfusion)
  | cons p rest ih =>
      rw [List.map_cons]
      by_cases hp : p.1 = k
      · rw [if_pos hp, lookupId, if_pos rfl]
      · rw [if_neg hp, lookupId, if_neg hp]
        rw [lookupId, if_neg hp] at h
        exact ih h

theorem lookupId_map_replace_ne (d : List (Nat × PRRecord)) (k k2 : Nat)
    (v : PRRecord) (h : k2 ≠ k) :
    lookupId (d.map (fun p => if p.1 = k then (k, v) else p)) k2 =
      lookupId d k2 := by
  induction d with
  | nil => rfl
  | cons p rest ih =>
      rw [List.map_cons]
      by_cases hp : p.1 = k
      · have hk2 : k ≠ k2 := fun he => h he.symm
        have hp2 : p.1 ≠ k2 := by rw [hp]; exact hk2
        rw [if_pos hp, lookupId, lookupId, if_neg hk2, if_neg hp2]
        exact ih
      · rw [if_neg hp, lookupId, lookupId]
        by_cases hq : p.1 = k2
        · rw [if_pos hq, if_pos hq]
        · rw [if_neg hq, if_neg hq]
          exact ih

theorem lookupId_append_single_self (d : List (Nat × PRRecord)) (k : Nat)
    (v : PRRecord) (h : lookupId d k = none) :
    lookupId (d ++ [(k, v)]) k = some v := by
  induction d with
  | nil => rw [List.nil_append, lookupId, if_pos rfl]
  | cons p rest ih =>
      rw [lookupId] at h
      by_cases hp : p.1 = k
      · rw [if_pos hp] at h
        exact absurd h Option.noConfusion
      · rw [if_neg hp] at h
        rw [List.cons_append, lookupId, if_neg hp]
        exact ih h

theorem lookupId_append_single_ne (d : List (Nat × PRRecord)) (k k2 : Nat)
    (v : PRRecord) (h : k2 ≠ k) :
    lookupId (d ++ [(k, v)]) k2 = lookupId d k2 := by
  induction d with
  | nil =>
      have hk : k ≠ k2 := fun he => h he.symm
      simp [lookupId, hk]
  | cons p rest ih =>
      rw [List.cons_append, lookupId, lookupId]
      by_cases hp : p.1 = k2
      · rw [if_pos hp, if_pos hp]
      · rw [if_neg hp, if_neg hp]
        exact ih

theorem lookupId_insert_self (d : List (Nat × PRRecord)) (k : Nat)
    (v : PRRecord) : lookupId (dictInsert d k v) k = some v := by
  unfold dictInsert
  by_cases h : (lookupId d k).isSome = true
  · rw [if_pos h]
    exact lookupId_map_replace_self d k v h
  · rw [if_neg h]
    exact lookupId_append_single_self d k v (Option.not_isSome_iff_eq_none.mp h)

theorem lookupId_insert_ne (d : List (Nat × PRRecord)) (k k2 : Nat)
    (v : PRRecord) (h : k2 ≠ k) :
    lookupId (dictInsert d k v) k2 = lookupId d k2 := by
  unfold dictInsert
  by_cases hs : (lookupId d k).isSome = true
  · rw [if_pos hs]
    exact lookupId_map_replace_ne d k k2 v h
  · rw [if_neg hs]
    exact lookupId_append_single_ne d k k2 v h

/-!  Claim C4 — `schedule_pr` fails exactly on non-future times. -/

/-- Claim C4: for every request and time, `schedule_pr` fails (returns
no id and leaves the state untouched) whenever the target time is at or
before `now`, and succeeds returning the fresh id `next_pr_id` (not yet
a key of the registry) whenever the target time is strictly after
`now`. -/
theorem C4_schedule_guard (s : AppState) (q : PRRequest)
    (whenPast whenFut now : Int) (pr_job : Option Nat) (hwf : WF s)
    (hp : whenPast ≤ now) (hf : now < whenFut) :
    schedule_pr s q whenPast now pr_job = (none, s) ∧
    (schedule_pr s q whenFut now pr_job).1 = some s.next_pr_id ∧
    lookupId s.scheduled_prs s.next_pr_id = none := by
  refine ⟨?_, ?_, ?_⟩
  · unfold schedule_pr
    rw [if_pos (by omega)]
  · have h2 : ¬ (whenFut - now ≤ 0) := by omega
    unfold schedule_pr
    rw [if_neg h2]
  · exact lookupId_eq_none_of_lt _ _ hwf

/-- Witness for C4 at the concrete state `exState` (now = 100, past
target 100, future target 160). -/
theorem C4_schedule_guard_witness :
    (WF exState ∧ (100 : Int) ≤ 100 ∧ (100 : Int) < 160) ∧
    (schedule_pr exState exRequest 100 100 (some 9) = (none, exState) ∧
     (schedule_pr exState exRequest 160 100 (some 9)).1 = some exState.next_pr_id ∧
     lookupId exState.scheduled_prs exState.next_pr_id = none) :=
  ⟨⟨by decide, by decide, by decide⟩,
   C4_schedule_guard exState exRequest 100 160 100 (some 9)
     (by decide) (by decide) (by decide)⟩

/-!  Claim C10 — a failed schedule consumes nothing. -/

/-- Claim C10: a `schedule_pr` call with a non-future target time
returns no id and leaves the registry and the next-id counter exactly
unchanged, and the next successful `schedule_pr` call returns the very
id (`s.next_pr_id`) that the failed call would have used. -/
theorem C10_failed_schedule_consumes_nothing (s : AppState)
    (q q2 : PRRequest) (whenPast now : Int) (pr_job : Option Nat)
    (whenFut now2 : Int) (pr_job2 : Option Nat)
    (hp : whenPast ≤ now) (hf : now2 < whenFut) :
    schedule_pr s q whenPast now pr_job = (none, s) ∧
    (schedule_pr (schedule_pr s q whenPast now pr_job).2 q2 whenFut now2
        pr_job2).1 = some s.next_pr_id := by
  have h1 : schedule_pr s q whenPast now pr_job = (none, s) := by
    unfold schedule_pr
    rw [if_pos (by omega)]
  refine ⟨h1, ?_⟩
  rw [h1]
  have h2 : ¬ (whenFut - now2 ≤ 0) := by omega
  unfold schedule_pr
  rw [if_neg h2]

/-- Witness for C10 at `exState`. -/
theorem C10_failed_schedule_consumes_nothing_witness :
    ((100 : Int) ≤ 100 ∧ (100 : Int) < 160) ∧
    (schedule_pr exState exRequest 100 100 none = (none, exState) ∧
     (schedule_pr (schedule_pr exState exRequest 100 100 none).2 exRequest
        160 100 none).1 = some exState.next_pr_id) :=
  ⟨⟨by decide, by decide⟩,
   C10_failed_schedule_consumes_nothing exState exRequest exRequest 100 100
     none 160 100 none (by decide) (by decide)⟩

/-!  Claim C7 — cancel semantics. -/

/-- Cancelling an id that is not a registry key returns false and
leaves the state untouched (the early `return False` of the source). -/
theorem cancel_absent (s : AppState) (j : Nat)
    (hj : lookupId s.scheduled_prs j = none) :
    cancel_scheduled_pr s j = (false, s) := by
  unfold cancel_scheduled_pr
  rw [hj]
  rfl

/-- Cancelling a present id returns true and deletes exactly that
binding. -/
theorem cancel_present (s : AppState) (i : Nat)
    (hs : (lookupId s.scheduled_prs i).isSome = true) :
    cancel_scheduled_pr s i
      = (true, { s with scheduled_prs := dictErase s.scheduled_prs i }) := by
  unfold cancel_scheduled_pr
  rw [if_pos hs]

/-- Claim C7: cancelling an absent id returns false and changes
nothing; cancelling a present id returns true, after which the id is
absent, so an immediate second cancel of the same id returns false and
changes nothing further. -/
theorem C7_cancel_semantics (s : AppState) (i j : Nat) (r : PRRecord)
    (h : lookupId s.scheduled_prs i = some r)
    (hj : lookupId s.scheduled_prs j = none) :
    cancel_scheduled_pr s j = (false, s) ∧
    (cancel_scheduled_pr s i).1 = true ∧
    lookupId (cancel_scheduled_pr s i).2.scheduled_prs i = none ∧
    cancel_scheduled_pr (cancel_scheduled_pr s i).2 i
      = (false, (cancel_scheduled_pr s i).2) := by
  have hs : (lookupId s.scheduled_prs i).isSome = true := by
    rw [h]
    rfl
  have hc := cancel_present s i hs
  have habs : lookupId (dictErase s.scheduled_prs i) i = none :=
    lookupId_erase_self _ _
  refine ⟨cancel_absent s j hj, ?_, ?_, ?_⟩
  · rw [hc]
  · rw [hc]
    exact habs
  · refine cancel_absent _ i ?_
    rw [hc]
    exact habs

/-- Witness for C7 at `exState` (present id 1, absent id 2). -/
theorem C7_cancel_semantics_witness :
    (lookupId exState.scheduled_prs 1 = some exRecord ∧
     lookupId exState.scheduled_prs 2 = none) ∧
    (cancel_scheduled_pr exState 2 = (false, exState) ∧
     (cancel_scheduled_pr exState 1).1 = true ∧
     lookupId (cancel_scheduled_pr exState 1).2.scheduled_prs 1 = none ∧
     cancel_scheduled_pr (cancel_scheduled_pr exState 1).2 1
       = (false, (cancel_scheduled_pr exState 1).2)) :=
  ⟨⟨by decide, by decide⟩,
   C7_cancel_semantics exState 1 2 exRecord (by decide) (by decide)⟩

/-!  Claim C1 — what firing actually does to the Registry. -/

/-- Counterexample to claim C1 as stated: at the concrete state
`exState` the pending record with id 1 is present, the fire action runs
with a valid repository path but a failing remote creation, and the
record is NOT removed from the Registry afterwards (the whole state is
untouched) — refuting removal "regardless of whether the remote
creation reports success or failure". -/
theorem C1_counterexample :
    (lookupId exState.scheduled_prs 1).isSome = true ∧
    (fireScheduled exState 1 true false).1 = false ∧
    lookupId (fireScheduled exState 1 true false).2.scheduled_prs 1 ≠ none := by
  decide

/-- Claim C1 (amended): when the timer fires for a pending record, the
record is removed from the Registry exactly when the remote creation
succeeds (valid repository path and successful external command); on
any failed attempt — bad path or failing remote call — the fire action
returns false and leaves the state, the record included, untouched. -/
theorem C1_fire_removes_record_only_on_success (s : AppState) (i : Nat)
    (r : PRRecord) (hi : i ≠ 0) (h : lookupId s.scheduled_prs i = some r) :
    fireScheduled s i true true
      = (true, { s with scheduled_prs := dictErase s.scheduled_prs i }) ∧
    lookupId (fireScheduled s i true true).2.scheduled_prs i = none ∧
    fireScheduled s i true false = (false, s) ∧
    fireScheduled s i false true = (false, s) ∧
    fireScheduled s i false false = (false, s) := by
  have hs : (lookupId s.scheduled_prs i).isSome = true := by
    rw [h]
    rfl
  have h1 : fireScheduled s i true true
      = (true, { s with scheduled_prs := dictErase s.scheduled_prs i }) := by
    unfold fireScheduled create_pr
    simp only [Bool.true_eq_false, if_false]
    rw [if_pos (And.intro hi hs)]
    rw [if_pos trivial]
  refine ⟨h1, ?_, rfl, rfl, rfl⟩
  rw [h1]
  exact lookupId_erase_self _ _

/-- Witness for the amended C1 at `exState`, id 1. -/
theorem C1_fire_removes_record_only_on_success_witness :
    ((1 : Nat) ≠ 0 ∧ lookupId exState.scheduled_prs 1 = some exRecord) ∧
    (fireScheduled exState 1 true true
       = (true, { exState with scheduled_prs := dictErase exState.scheduled_prs 1 }) ∧
     lookupId (fireScheduled exState 1 true true).2.scheduled_prs 1 = none ∧
     fireScheduled exState 1 true false = (false, exState) ∧
     fireScheduled exState 1 false true = (false, exState) ∧
     fireScheduled exState 1 false false = (false, exState)) :=
  ⟨⟨by decide, by decide⟩,
   C1_fire_removes_record_only_on_success exState 1 exRecord
     (by decide) (by decide)⟩

/-!  Claim C3 — a failed reschedule loses the record. -/

/-- Counterexample to claim C3 as stated: at `exState` the record with
id 1 is present and `reschedule_pr` is called with a target time (5)
not after the current time (10); the call fails (returns false), but
the record with id 1 is NOT "still present unchanged" — it has been
deleted by the internal cancel that runs before the failed
re-schedule. -/
theorem C3_counterexample :
    (lookupId exState.scheduled_prs 1).isSome = true ∧
    (reschedule_pr exState 1 5 10 none).1 = false ∧
    lookupId (reschedule_pr exState 1 5 10 none).2.scheduled_prs 1 = none := by
  decide

/-- Claim C3 (amended): for an id present in the Registry and a new
time not strictly in the future, `reschedule_pr` fails (returns false),
but the record with that id is no longer present afterwards: the
operation first cancels (deletes) the entry and only then lets the
inner `schedule_pr` reject the stale time, so the failed reschedule
leaves the registry without the record (and the next-id counter
unchanged). -/
theorem C3_failed_reschedule_drops_record (s : AppState) (i : Nat)
    (r : PRRecord) (newWhen now : Int) (pr_job : Option Nat)
    (h : lookupId s.scheduled_prs i = some r) (hle : newWhen ≤ now) :
    reschedule_pr s i newWhen now pr_job
      = (false, { s with scheduled_prs := dictErase s.scheduled_prs i }) ∧
    lookupId (reschedule_pr s i newWhen now pr_job).2.scheduled_prs i = none := by
  have hs : (lookupId s.scheduled_prs i).isSome = true := by
    rw [h]
    rfl
  have hcore : reschedule_core s i newWhen now pr_job
      = (none, { s with scheduled_prs := dictErase s.scheduled_prs i }) := by
    unfold reschedule_core schedule_pr
    rw [h, cancel_present s i hs]
    dsimp only
    rw [if_pos (show newWhen - now ≤ 0 by omega)]
  have hres : reschedule_pr s i newWhen now pr_job
      = (false, { s with scheduled_prs := dictErase s.scheduled_prs i }) := by
    unfold reschedule_pr
    rw [hcore]
    rfl
  refine ⟨hres, ?_⟩
  rw [hres]
  exact lookupId_erase_self _ _

/-- Witness for the amended C3 at `exState` (new time 5, now 10). -/
theorem C3_failed_reschedule_drops_record_witness :
    (lookupId exState.scheduled_prs 1 = some exRecord ∧ (5 : Int) ≤ 10) ∧
    (reschedule_pr exState 1 5 10 none
       = (false, { exState with scheduled_prs := dictErase exState.scheduled_prs 1 }) ∧
     lookupId (reschedule_pr exState 1 5 10 none).2.scheduled_prs 1 = none) :=
  ⟨⟨by decide, by decide⟩,
   C3_failed_reschedule_drops_record exState 1 exRecord 5 10 none
     (by decide) (by decide)⟩

/-!  Claim C6 — successful reschedule retires the old id. -/

/-- Claim C6: rescheduling a present id to a strictly future time
succeeds, issues the fresh id `next_pr_id` (different from the old id),
removes the old id from the Registry, and stores under the new id a
record with the same repository, head, base, title, body and local-path
fields as the old record and with the new scheduled time. -/
theorem C6_reschedule_retires_old_id (s : AppState) (i : Nat)
    (d : PRRecord) (newWhen now : Int) (pr_job : Option Nat) (hwf : WF s)
    (h : lookupId s.scheduled_prs i = some d) (hfut : now < newWhen) :
    (reschedule_pr s i newWhen now pr_job).1 = true ∧
    (reschedule_core s i newWhen now pr_job).1 = some s.next_pr_id ∧
    s.next_pr_id ≠ i ∧
    lookupId (reschedule_core s i newWhen now pr_job).2.scheduled_prs i = none ∧
    lookupId (reschedule_core s i newWhen now pr_job).2.scheduled_prs
        s.next_pr_id
      = some { repo := d.repo, head := d.head, base := d.base,
               title := d.title, body := d.body, time := newWhen,
               git_repo_path := d.git_repo_path, job := pr_job } := by
  have hs : (lookupId s.scheduled_prs i).isSome = true := by
    rw [h]
    rfl
  have hlt : i < s.next_pr_id := hwf (i, d) (mem_of_lookupId _ _ _ h)
  have hne : s.next_pr_id ≠ i := Nat.ne_of_gt hlt
  have hcore : reschedule_core s i newWhen now pr_job
      = (some s.next_pr_id,
         { s with
             scheduled_prs := dictInsert (dictErase s.scheduled_prs i)
               s.next_pr_id
               { repo := d.repo, head := d.head, base := d.base,
                 title := d.title, body := d.body, time := newWhen,
                 git_repo_path := d.git_repo_path, job := pr_job },
             next_pr_id := s.next_pr_id + 1 }) := by
    unfold reschedule_core schedule_pr
    rw [h, cancel_present s i hs]
    dsimp only
    rw [if_neg (show ¬ (newWhen - now ≤ 0) by omega)]
  refine ⟨?_, ?_, hne, ?_, ?_⟩
  · unfold reschedule_pr
    rw [hcore]
    rfl
  · rw [hcore]
  · rw [hcore]
    show lookupId (dictInsert (dictErase s.scheduled_prs i) s.next_pr_id _) i
      = none
    rw [lookupId_insert_ne _ _ _ _ (Nat.ne_of_lt hlt)]
    exact lookupId_erase_self _ _
  · rw [hcore]
    exact lookupId_insert_self _ _ _

/-- Witness for C6 at `exState` (old id 1, new time 200, now 100). -/
theorem C6_reschedule_retires_old_id_witness :
    (WF exState ∧ lookupId exState.scheduled_prs 1 = some exRecord ∧
     (100 : Int) < 200) ∧
    ((reschedule_pr exState 1 200 100 (some 9)).1 = true ∧
     (reschedule_core exState 1 200 100 (some 9)).1 = some exState.next_pr_id ∧
     exState.next_pr_id ≠ 1 ∧
     lookupId (reschedule_core exState 1 200 100 (some 9)).2.scheduled_prs 1
       = none ∧
     lookupId (reschedule_core exState 1 200 100 (some 9)).2.scheduled_prs
         exState.next_pr_id
       = some { repo := exRecord.repo, head := exRecord.head,
                base := exRecord.base, title := exRecord.title,
                body := exRecord.body, time := 200,
                git_repo_path := exRecord.git_repo_path, job := some 9 }) :=
  ⟨⟨by decide, by decide, by decide⟩,
   C6_reschedule_retires_old_id exState 1 exRecord 200 100 (some 9)
     (by decide) (by decide) (by decide)⟩

/-!  Claim C8 — createNow validation. -/

/-- Every required-field pair whose value is blank contributes its
label to the missing list of `validate_inputs`. -/
theorem mem_missingFields (inputs : List (String × String)) (lbl val : String)
    (hmem : (lbl, val) ∈ required_fields inputs) (hb : isBlank val = true) :
    lbl ∈ missingFields inputs := by
  unfold missingFields
  exact List.mem_map_of_mem Prod.fst (List.mem_filter.mpr ⟨hmem, hb⟩)

/-- Claim C8: whenever at least one of the six required form fields is
blank, `create_pr_now` stops at validation — no `create_pr` (hence no
remote creation) is attempted and the state, Registry included, is
untouched — and the aggregate validation message lists the label of
every blank field (in particular "PR Title" when the title is blank,
since `blankLabels` then contains it). -/
theorem C8_create_now_blank_fields (s : AppState) (f : FormValues)
    (path_ok remote_ok : Bool) (_hblank : blankLabels f ≠ []) :
    (create_pr_now s f path_ok remote_ok).1 = false ∧
    (create_pr_now s f path_ok remote_ok).2 = s ∧
    blankLabels f ⊆ missingFields (get_input_values f) := by
  have hreq : required_fields (get_input_values f)
      = [("Local Git Repo", ""), ("Origin Repository", f.repo),
         ("Forked Username", ""), ("Forked Branch", ""),
         ("Base Branch", f.base), ("PR Title", f.title)] := rfl
  have hmem1 : "Local Git Repo" ∈ missingFields (get_input_values f) :=
    mem_missingFields _ _ "" (by rw [hreq]; exact List.mem_cons_self _ _) rfl
  have hne : missingFields (get_input_values f) ≠ [] := by
    intro he
    rw [he] at hmem1
    exact List.not_mem_nil _ hmem1
  have hval : validate_inputs (get_input_values f) = false := by
    unfold validate_inputs
    cases hm : missingFields (get_input_values f) with
    | nil => exact absurd hm hne
    | cons a l => rfl
  have hcpn : create_pr_now s f path_ok remote_ok = (false, s) := by
    unfold create_pr_now
    rw [hval]
    rw [if_pos rfl]
  refine ⟨by rw [hcpn], by rw [hcpn], ?_⟩
  intro x hx
  unfold blankLabels at hx
  rw [List.mem_map] at hx
  obtain ⟨p, hp, hpx⟩ := hx
  rw [List.mem_filter] at hp
  obtain ⟨hpm, hpb⟩ := hp
  subst hpx
  simp only [List.mem_cons, List.not_mem_nil, or_false] at hpm
  rcases hpm with h1 | h2 | h3 | h4 | h5 | h6
  · rw [h1]
    exact hmem1
  · rw [h2]
    refine mem_missingFields _ _ f.repo (by rw [hreq]; simp) ?_
    rw [h2] at hpb
    exact hpb
  · rw [h3]
    exact mem_missingFields _ _ "" (by rw [hreq]; simp) rfl
  · rw [h4]
    exact mem_missingFields _ _ "" (by rw [hreq]; simp) rfl
  · rw [h5]
    refine mem_missingFields _ _ f.base (by rw [hreq]; simp) ?_
    rw [h5] at hpb
    exact hpb
  · rw [h6]
    refine mem_missingFields _ _ f.title (by rw [hreq]; simp) ?_
    rw [h6] at hpb
    exact hpb

/-- Witness for C8 at `exForm` (whitespace-only title, all other
fields filled). -/
theorem C8_create_now_blank_fields_witness :
    blankLabels exForm ≠ [] ∧
    ((create_pr_now exState exForm true true).1 = false ∧
     (create_pr_now exState exForm true true).2 = exState ∧
     blankLabels exForm ⊆ missingFields (get_input_values exForm)) :=
  ⟨by decide, C8_create_now_blank_fields exState exForm true true (by decide)⟩

/-!  Claim C5 — identifiers are unique and strictly increasing. -/

/-- `schedule_pr` never decreases the id counter. -/
theorem schedule_pr_next_mono (s : AppState) (q : PRRequest) (w n : Int)
    (j : Option Nat) : s.next_pr_id ≤ (schedule_pr s q w n j).2.next_pr_id := by
  unfold schedule_pr
  by_cases hcond : w - n ≤ 0
  · rw [if_pos hcond]
  · rw [if_neg hcond]
    exact Nat.le_succ _

/-- Cancelling never touches the id counter. -/
theorem cancel_next_eq (s : AppState) (i : Nat) :
    (cancel_scheduled_pr s i).2.next_pr_id = s.next_pr_id := by
  unfold cancel_scheduled_pr
  by_cases hcond : (lookupId s.scheduled_prs i).isSome = true
  · rw [if_pos hcond]
  · rw [if_neg hcond]

/-- `create_pr` never touches the id counter. -/
theorem create_pr_next_eq (s : AppState) (path_ok remote_ok : Bool)
    (oid : Option Nat) :
    (create_pr s path_ok remote_ok oid).2.next_pr_id = s.next_pr_id := by
  unfold create_pr
  by_cases h1 : path_ok = false
  · rw [if_pos h1]
  · rw [if_neg h1]
    by_cases h2 : remote_ok = true
    · rw [if_pos h2]
      cases oid with
      | none => rfl
      | some i =>
          dsimp only
          by_cases h3 : i ≠ 0 ∧ (lookupId s.scheduled_prs i).isSome = true
          · rw [if_pos h3]
          · rw [if_neg h3]
    · rw [if_neg h2]

/-- `reschedule_core` never decreases the id counter. -/
theorem reschedule_core_next_mono (s : AppState) (i : Nat) (w n : Int)
    (j : Option Nat) :
    s.next_pr_id ≤ (reschedule_core s i w n j).2.next_pr_id := by
  unfold reschedule_core
  cases hl : lookupId s.scheduled_prs i with
  | none => exact Nat.le_refl _
  | some d =>
      dsimp only
      calc s.next_pr_id
          = (cancel_scheduled_pr s i).2.next_pr_id := (cancel_next_eq s i).symm
        _ ≤ _ := schedule_pr_next_mono _ _ _ _ _

/-- One `step` never decreases the id counter. -/
theorem step_next_mono (s : AppState) (op : Op) :
    s.next_pr_id ≤ (step s op).2.next_pr_id := by
  cases op with
  | opSchedule q w n j => exact schedule_pr_next_mono s q w n j
  | opCancel i => exact Nat.le_of_eq (cancel_next_eq s i).symm
  | opFire i path_ok remote_ok =>
      exact Nat.le_of_eq (create_pr_next_eq s path_ok remote_ok (some i)).symm
  | opReschedule i w n j => exact reschedule_core_next_mono s i w n j

/-- A successful `schedule_pr` returns exactly the pre-state counter
and bumps the counter just past it. -/
theorem schedule_pr_ret (s : AppState) (q : PRRequest) (w n : Int)
    (j : Option Nat) (i : Nat) (h : (schedule_pr s q w n j).1 = some i) :
    i = s.next_pr_id ∧ (schedule_pr s q w n j).2.next_pr_id = i + 1 := by
  unfold schedule_pr at h ⊢
  by_cases hcond : w - n ≤ 0
  · rw [if_pos hcond] at h
    exact absurd h Option.noConfusion
  · rw [if_neg hcond] at h ⊢
    dsimp only at h ⊢
    injection h with h2
    subst h2
    exact ⟨rfl, rfl⟩

/-- A successful `reschedule_core` likewise issues the pre-state
counter as the fresh id. -/
theorem reschedule_core_ret (s : AppState) (pid : Nat) (w n : Int)
    (j : Option Nat) (i : Nat)
    (h : (reschedule_core s pid w n j).1 = some i) :
    i = s.next_pr_id ∧ (reschedule_core s pid w n j).2.next_pr_id = i + 1 := by
  cases hl : lookupId s.scheduled_prs pid with
  | none =>
      unfold reschedule_core at h
      rw [hl] at h
      dsimp only at h
      exact absurd h Option.noConfusion
  | some d =>
      unfold reschedule_core at h ⊢
      rw [hl] at h ⊢
      dsimp only at h ⊢
      have hr := schedule_pr_ret (cancel_scheduled_pr s pid).2 _ w n j i h
      rw [cancel_next_eq] at hr
      exact hr

/-- The id returned by a successful step lies between the pre- and
post-state counters. -/
theorem step_ret_bounds (s : AppState) (op : Op) (i : Nat)
    (h : (step s op).1 = some i) :
    s.next_pr_id ≤ i ∧ i < (step s op).2.next_pr_id := by
  cases op with
  | opSchedule q w n j =>
      have hr := schedule_pr_ret s q w n j i h
      refine ⟨Nat.le_of_eq hr.1.symm, ?_⟩
      show i < (schedule_pr s q w n j).2.next_pr_id
      rw [hr.2]
      omega
  | opCancel pid => exact absurd h Option.noConfusion
  | opFire pid path_ok remote_ok => exact absurd h Option.noConfusion
  | opReschedule pid w n j =>
      have hr := reschedule_core_ret s pid w n j i h
      refine ⟨Nat.le_of_eq hr.1.symm, ?_⟩
      show i < (reschedule_core s pid w n j).2.next_pr_id
      rw [hr.2]
      omega

/-- Every id issued along a trace is at least the starting counter. -/
theorem runIds_ge (ops : List Op) (s : AppState) (i : Nat)
    (h : i ∈ runIds s ops) : s.next_pr_id ≤ i := by
  induction ops generalizing s with
  | nil => exact absurd h (List.not_mem_nil i)
  | cons op ops ih =>
      unfold runIds at h
      cases hr : (step s op).1 with
      | none =>
          rw [hr] at h
          dsimp only at h
          exact Nat.le_trans (step_next_mono s op) (ih _ h)
      | some r =>
          rw [hr] at h
          dsimp only at h
          rcases List.mem_cons.mp h with h1 | h2
          · subst h1
            exact (step_ret_bounds s op i hr).1
          · exact Nat.le_trans (step_next_mono s op) (ih _ h2)

/-- Claim C5: along every finite trace of scheduler operations, the
sequence of identifiers returned by the successful schedule calls
(direct ones and those performed inside reschedule) is strictly
increasing — hence all issued ids are pairwise distinct, and an id is
never reused even after cancel or fire operations have deleted the
record that carried it. -/
theorem C5_schedule_ids_strictly_increasing (s : AppState) (ops : List Op) :
    List.Sorted (fun a b => a < b) (runIds s ops) ∧
    List.Pairwise (fun a b => a ≠ b) (runIds s ops) := by
  have hsorted : ∀ ops2 : List Op, ∀ s2 : AppState,
      List.Sorted (fun a b => a < b) (runIds s2 ops2) := by
    intro ops2
    induction ops2 with
    | nil => exact fun s2 => List.sorted_nil
    | cons op ops2 ih =>
        intro s2
        unfold runIds
        cases hr : (step s2 op).1 with
        | none =>
            dsimp only
            exact ih _
        | some r =>
            dsimp only
            rw [List.sorted_cons]
            refine ⟨?_, ih _⟩
            intro b hb
            have h1 := runIds_ge ops2 (step s2 op).2 b hb
            have h2 := (step_ret_bounds s2 op r hr).2
            omega
  refine ⟨hsorted ops s, ?_⟩
  exact List.Pairwise.imp (fun hlt => Nat.ne_of_lt hlt) (hsorted ops s)

/-!  Claim C9 — history list invariants. -/

theorem History.get_set_self (h : History) (f : HField) (l : List String) :
    (h.set f l).get f = l := by
  cases f <;> rfl

theorem History.get_set_ne (h : History) (f g : HField) (l : List String)
    (hne : g ≠ f) : (h.set f l).get g = h.get g := by
  cases f <;> cases g <;> first | rfl | exact absurd rfl hne

theorem initHistory_wf : HistWF initHistory := by
  intro f
  cases f <;> exact ⟨by decide, List.nodup_nil⟩

/-- `update_history` preserves the bound and the no-duplicates
invariant of every field. -/
theorem update_history_wf (h : History) (f : HField) (v : String)
    (hw : HistWF h) : HistWF (update_history h f v) := by
  intro g
  unfold update_history
  by_cases hc : v ≠ "" ∧ v ∉ h.get f
  · rw [if_pos hc]
    dsimp only
    by_cases hg : g = f
    · subst hg
      rw [History.get_set_self]
      have hlen0 := (hw g).1
      have hnd0 := (hw g).2
      have hnd1 : (v :: h.get g).Nodup := List.nodup_cons.mpr ⟨hc.2, hnd0⟩
      by_cases hlen : 10 < (v :: h.get g).length
      · rw [if_pos hlen]
        constructor
        · rw [List.length_dropLast, List.length_cons]
          omega
        · exact List.Nodup.sublist (List.dropLast_sublist _) hnd1
      · rw [if_neg hlen]
        constructor
        · rw [List.length_cons] at hlen ⊢
          omega
        · exact hnd1
    · rw [History.get_set_ne h f g _ hg]
      exact hw g
  · rw [if_neg hc]
    exact hw g

/-- The invariant holds along every update sequence. -/
theorem histRun_wf (us : List (HField × String)) (h : History)
    (hw : HistWF h) : HistWF (histRun h us) := by
  induction us generalizing h with
  | nil => exact hw
  | cons u us ih => exact ih _ (update_history_wf h u.1 u.2 hw)

/-- Counterexample to the most-recently-used-first part of claim C9:
starting from empty history, update `repos` with "a", then "b", then
"a" again; because `update_history` ignores values already present
instead of moving them to the front, the list ends as ["b", "a"] — the
value just updated ("a") is not the first element. -/
theorem C9_counterexample :
    (update_history (update_history (update_history initHistory
        HField.repos "a") HField.repos "b") HField.repos "a").get HField.repos
      = ["b", "a"] ∧
    ((update_history (update_history (update_history initHistory
        HField.repos "a") HField.repos "b") HField.repos "a").get
        HField.repos).head? ≠ some "a" := by
  decide

/-- Claim C9 (amended): starting from empty lists, every history list
always holds at most 10 entries and never two equal values; updating a
field with a nonempty value that is not already present makes that
value the first element of the field's list, while updating with an
already-present value — or with the empty value — leaves the history
unchanged (so a repeated value is not moved to the front). -/
theorem C9_history_bounded_nodup_mru (us : List (HField × String))
    (f : HField) (v : String) :
    ((histRun initHistory us).get f).length ≤ 10 ∧
    ((histRun initHistory us).get f).Nodup ∧
    (v ≠ "" → v ∉ (histRun initHistory us).get f →
      ((update_history (histRun initHistory us) f v).get f).head? = some v) ∧
    (v ∈ (histRun initHistory us).get f →
      update_history (histRun initHistory us) f v = histRun initHistory us) ∧
    (v = "" →
      update_history (histRun initHistory us) f v = histRun initHistory us) := by
  have hw := histRun_wf us initHistory initHistory_wf
  refine ⟨(hw f).1, (hw f).2, ?_, ?_, ?_⟩
  · intro hv hm
    unfold update_history
    rw [if_pos (And.intro hv hm)]
    dsimp only
    rw [History.get_set_self]
    by_cases hlen : 10 < (v :: (histRun initHistory us).get f).length
    · rw [if_pos hlen]
      cases hl : (histRun initHistory us).get f with
      | nil =>
          rw [hl] at hlen
          simp at hlen
      | cons a l => rfl
    · rw [if_neg hlen]
      rfl
  · intro hm
    unfold update_history
    rw [if_neg (fun hcontra => hcontra.2 hm)]
  · intro hv
    unfold update_history
    rw [if_neg (fun hcontra => hcontra.1 hv)]

/-- Witness for the amended C9, after one prior update of `repos` with
"a": the fresh value "b" becomes the head, re-updating with the present
value "a" changes nothing, and updating with the empty value changes
nothing. -/
theorem C9_history_bounded_nodup_mru_witness :
    (("b" : String) ≠ "" ∧
     "b" ∉ (histRun initHistory [(HField.repos, "a")]).get HField.repos ∧
     "a" ∈ (histRun initHistory [(HField.repos, "a")]).get HField.repos) ∧
    ((histRun initHistory [(HField.repos, "a")]).get HField.repos).length ≤ 10 ∧
    ((histRun initHistory [(HField.repos, "a")]).get HField.repos).Nodup ∧
    ((update_history (histRun initHistory [(HField.repos, "a")])
        HField.repos "b").get HField.repos).head? = some "b" ∧
    update_history (histRun initHistory [(HField.repos, "a")]) HField.repos "a"
      = histRun initHistory [(HField.repos, "a")] ∧
    update_history (histRun initHistory [(HField.repos, "a")]) HField.repos ""
      = histRun initHistory [(HField.repos, "a")] :=
  ⟨⟨by decide, by decide, by decide⟩,
   (C9_history_bounded_nodup_mru [(HField.repos, "a")] HField.repos "b").1,
   (C9_history_bounded_nodup_mru [(HField.repos, "a")] HField.repos "b").2.1,
   (C9_history_bounded_nodup_mru [(HField.repos, "a")] HField.repos
     "b").2.2.1 (by decide) (by decide),
   (C9_history_bounded_nodup_mru [(HField.repos, "a")] HField.repos
     "a").2.2.2.1 (by decide),
   (C9_history_bounded_nodup_mru [(HField.repos, "a")] HField.repos
     "").2.2.2.2 (by decide)⟩

/-!  Claim C2 — the save/load round trip. -/

/-- Claim C2 fails as a code bug: whenever the registry holds at least
one pending record, `save_config` hands `json.dump` a dictionary whose
`time` entry is a `datetime` object, `json.dump` raises `TypeError`
(modelled as `none`), the exception handler only shows a warning, and
no usable config document is produced — so a subsequent `load` cannot
reproduce the pending records, contradicting the round-trip property.
(Independently, the integer ids would come back as strings, since JSON
object keys are strings.) -/
theorem C2_save_never_persists_pending (s : AppState) (p : Nat × PRRecord)
    (rest : List (Nat × PRRecord)) (h : s.scheduled_prs = p :: rest) :
    save_config s = none := by
  unfold save_config stateFileDict
  rw [h]
  rfl

/-- Witness for C2 at the one-record state `exState`. -/
theorem C2_save_never_persists_pending_witness :
    exState.scheduled_prs = (1, exRecord) :: [] ∧ save_config exState = none :=
  ⟨rfl, C2_save_never_persists_pending exState (1, exRecord) [] rfl⟩

/-!  Registry well-formedness is an invariant of every reachable
state, justifying the `WF` hypotheses of the identifier claims. -/

theorem mem_dictErase (d : List (Nat × PRRecord)) (k : Nat)
    (p : Nat × PRRecord) (h : p ∈ dictErase d k) : p ∈ d := by
  induction d with
  | nil => exact absurd h (List.not_mem_nil p)
  | cons q rest ih =>
      rw [dictErase] at h
      by_cases hq : q.1 = k
      · rw [if_pos hq] at h
        exact List.mem_cons_of_mem _ (ih h)
      · rw [if_neg hq] at h
        rcases List.mem_cons.mp h with h1 | h2
        · rw [h1]
          exact List.mem_cons_self _ _
        · exact List.mem_cons_of_mem _ (ih h2)

theorem mem_dictInsert (d : List (Nat × PRRecord)) (k : Nat) (v : PRRecord)
    (p : Nat × PRRecord) (h : p ∈ dictInsert d k v) : p ∈ d ∨ p = (k, v) := by
  unfold dictInsert at h
  by_cases hs : (lookupId d k).isSome = true
  · rw [if_pos hs] at h
    rw [List.mem_map] at h
    obtain ⟨q, hq, he⟩ := h
    by_cases hqk : q.1 = k
    · rw [if_pos hqk] at he
      right
      exact he.symm
    · rw [if_neg hqk] at he
      left
      exact he ▸ hq
  · rw [if_neg hs] at h
    rcases List.mem_append.mp h with h1 | h2
    · left
      exact h1
    · right
      exact List.mem_singleton.mp h2

theorem schedule_pr_preserves_wf (s : AppState) (q : PRRequest) (w n : Int)
    (j : Option Nat) (h : WF s) : WF (schedule_pr s q w n j).2 := by
  unfold schedule_pr
  by_cases hcond : w - n ≤ 0
  · rw [if_pos hcond]
    exact h
  · rw [if_neg hcond]
    dsimp only
    intro p hp
    rcases mem_dictInsert _ _ _ p hp with h1 | h2
    · exact Nat.lt_succ_of_lt (h p h1)
    · rw [h2]
      exact Nat.lt_succ_self _

theorem cancel_preserves_wf (s : AppState) (i : Nat) (h : WF s) :
    WF (cancel_scheduled_pr s i).2 := by
  unfold cancel_scheduled_pr
  by_cases hs : (lookupId s.scheduled_prs i).isSome = true
  · rw [if_pos hs]
    intro p hp
    exact h p (mem_dictErase _ _ _ hp)
  · rw [if_neg hs]
    exact h

theorem create_pr_preserves_wf (s : AppState) (path_ok remote_ok : Bool)
    (oid : Option Nat) (h : WF s) : WF (create_pr s path_ok remote_ok oid).2 := by
  unfold create_pr
  by_cases h1 : path_ok = false
  · rw [if_pos h1]
    exact h
  · rw [if_neg h1]
    by_cases h2 : remote_ok = true
    · rw [if_pos h2]
      cases oid with
      | none => exact h
      | some i =>
          dsimp only
          by_cases h3 : i ≠ 0 ∧ (lookupId s.scheduled_prs i).isSome = true
          · rw [if_pos h3]
            intro p hp
            exact h p (mem_dictErase _ _ _ hp)
          · rw [if_neg h3]
            exact h
    · rw [if_neg h2]
      exact h

theorem reschedule_core_preserves_wf (s : AppState) (i : Nat) (w n : Int)
    (j : Option Nat) (h : WF s) : WF (reschedule_core s i w n j).2 := by
  unfold reschedule_core
  cases hl : lookupId s.scheduled_prs i with
  | none => exact h
  | some d =>
      dsimp only
      exact schedule_pr_preserves_wf _ _ _ _ _ (cancel_preserves_wf s i h)

theorem initState_wf : WF initState := by
  intro p hp
  exact absurd hp (List.not_mem_nil p)

/-- Every scheduler operation preserves registry well-formedness, so
every state reachable from `initState` satisfies `WF`. -/
theorem step_preserves_wf (s : AppState) (op : Op) (h : WF s) :
    WF (step s op).2 := by
  cases op with
  | opSchedule q w n j => exact schedule_pr_preserves_wf s q w n j h
  | opCancel i => exact cancel_preserves_wf s i h
  | opFire i path_ok remote_ok =>
      exact create_pr_preserves_wf s path_ok remote_ok (some i) h
  | opReschedule i w n j => exact reschedule_core_preserves_wf s i w n j h

end AutoPR
